import Mathlib

/-!
Verification of the trading-frontend reconciliation core against its
natural-language specification.

The development shallowly embeds the relevant source functions:
* the harvest-sequence planner `calculateFalciArray` (InstrumentsView),
* the WebSocket message reducers of `useWebSocket` (`handleMessage` cases
  `SYSTEM_STATUS`, `ORDER_UPDATE`, `MARKET_PRICE_UPDATE`),
* the snapshot loaders `fetchInitialData`, `refreshPositions`, `refreshOrders`,
* the connection-effect lifecycle of `useWebSocket` (onclose handler and the
  effect cleanup).

JavaScript numbers are modelled as rationals; `Math.floor` is `Int.floor` and
`Math.round` (round half towards positive infinity) is `fun q => ⌊q + 1/2⌋`.
JavaScript truthiness of an optional number (`undefined`, `null` and `0` are
falsy) is modelled on `Option ℚ`, and of an optional string on
`Option String` (`undefined` and the empty string are falsy).
-/

namespace Frontend

/-- Model of JavaScript `Math.round`: rounds half towards positive infinity. -/
def jsRound (q : ℚ) : ℤ := ⌊q + 1/2⌋

/-- Model of `Math.round(x * 10) / 10` (round to one decimal). -/
def roundTenth (x : ℚ) : ℚ := ((jsRound (x * 10) : ℤ) : ℚ) / 10

/-- Model of the planner's remaining-contracts update
`ct = Math.round((ct - x) * 10) / 10`. -/
def ctMinus (ct x : ℚ) : ℚ := ((jsRound ((ct - x) * 10) : ℤ) : ℚ) / 10

/-- Loss band at step `n`: `((tpPoints * n) + banda) * ct`. -/
def lossAt (tpPoints banda ct : ℚ) (n : ℕ) : ℚ := (tpPoints * n + banda) * ct

/-- `flp = Math.floor((reinv * 100) / loss)`. -/
def flpOf (reinv loss : ℚ) : ℤ := ⌊reinv * 100 / loss⌋

/-- `rounded = Math.floor(falcioContractsRaw * 10) / 10` where
`falcioContractsRaw = (ct * flp) / 100`. -/
def roundedStep (reinv loss ct : ℚ) : ℚ :=
  ((⌊ct * ((flpOf reinv loss : ℤ) : ℚ) / 100 * 10⌋ : ℤ) : ℚ) / 10

/-- The final push executed when the 20-step safety cap fires:
`if (ct > 0) falci.push(Math.round(ct * 10) / 10)`. -/
def capTail (ct : ℚ) : List ℚ := if 0 < ct then [roundTenth ct] else []

/-- The `while (ct > 0.05)` loop of `calculateFalciArray`, with explicit fuel.
The loop makes at most 21 iterations, because `n` grows on every harvesting
iteration, the `n > 20` safety cap breaks, and the close-everything branch
zeroes `ct`; the adequacy hypotheses `21 ≤ fuel + n` in the sum lemmas below
show the fuel of 25 used by `calculateFalciArray` is never exhausted.
The source's cap check `if (n > 20)` runs after `n++`, hence the `20 < n + 1`
tests on the two harvesting branches and `20 < n` on the close-everything
branch; the bare `else break` of the source (third harvesting alternative) is
the final `[]`. -/
def falciLoop (tpPoints banda reinv : ℚ) : ℕ → ℚ → ℕ → List ℚ
  | 0, _, _ => []
  | fuel + 1, ct, n =>
    if 1/20 < ct then
      if reinv < lossAt tpPoints banda ct n then
        if roundedStep reinv (lossAt tpPoints banda ct n) ct ≤ 0 ∧ 1/20 < ct then
          1/10 :: (if 20 < n + 1 then capTail (ctMinus ct (1/10))
                   else falciLoop tpPoints banda reinv fuel (ctMinus ct (1/10)) (n + 1))
        else if 0 < roundedStep reinv (lossAt tpPoints banda ct n) ct then
          roundedStep reinv (lossAt tpPoints banda ct n) ct ::
            (if 20 < n + 1 then
              capTail (ctMinus ct (roundedStep reinv (lossAt tpPoints banda ct n) ct))
             else falciLoop tpPoints banda reinv fuel
               (ctMinus ct (roundedStep reinv (lossAt tpPoints banda ct n) ct)) (n + 1))
        else []
      else
        (if 0 < roundTenth ct then [roundTenth ct] else []) ++
          (if 20 < n then capTail 0 else falciLoop tpPoints banda reinv fuel 0 n)
    else []

/-- The harvest-sequence planner `calculateFalciArray(contracts, tpPoints,
orderDistanceDivisor, harvestPct)` of `InstrumentsView`:
`banda = tpPoints / orderDistanceDivisor`, `reinv = (contracts * tpPoints) *
harvestPct`, then the harvesting loop starting at `ct = contracts`, `n = 1`. -/
def calculateFalciArray (contracts tpPoints orderDistanceDivisor harvestPct : ℚ) :
    List ℚ :=
  falciLoop tpPoints (tpPoints / orderDistanceDivisor)
    (contracts * tpPoints * harvestPct) 25 contracts 1

/-- One-step unfolding of the harvesting loop. -/
theorem falciLoop_succ (tpPoints banda reinv : ℚ) (fuel : ℕ) (ct : ℚ) (n : ℕ) :
    falciLoop tpPoints banda reinv (fuel + 1) ct n =
    if 1/20 < ct then
      if reinv < lossAt tpPoints banda ct n then
        if roundedStep reinv (lossAt tpPoints banda ct n) ct ≤ 0 ∧ 1/20 < ct then
          1/10 :: (if 20 < n + 1 then capTail (ctMinus ct (1/10))
                   else falciLoop tpPoints banda reinv fuel (ctMinus ct (1/10)) (n + 1))
        else if 0 < roundedStep reinv (lossAt tpPoints banda ct n) ct then
          roundedStep reinv (lossAt tpPoints banda ct n) ct ::
            (if 20 < n + 1 then
              capTail (ctMinus ct (roundedStep reinv (lossAt tpPoints banda ct n) ct))
             else falciLoop tpPoints banda reinv fuel
               (ctMinus ct (roundedStep reinv (lossAt tpPoints banda ct n) ct)) (n + 1))
        else []
      else
        (if 0 < roundTenth ct then [roundTenth ct] else []) ++
          (if 20 < n then capTail 0 else falciLoop tpPoints banda reinv fuel 0 n)
    else [] := rfl

/-- The loop immediately exits once the remaining contracts are at or below
the 0.05 floor, whatever the fuel. -/
theorem falciLoop_of_le (tpPoints banda reinv : ℚ) (fuel : ℕ) (ct : ℚ) (n : ℕ)
    (h : ct ≤ 1/20) : falciLoop tpPoints banda reinv fuel ct n = [] := by
  cases fuel with
  | zero => rfl
  | succ fuel => rw [falciLoop_succ, if_neg (not_lt.mpr h)]

theorem jsRound_intCast (k : ℤ) : jsRound (k : ℚ) = k := by
  unfold jsRound
  rw [add_comm, Int.floor_add_int]
  norm_num

theorem jsRound_le (q : ℚ) : (jsRound q : ℚ) ≤ q + 1/2 := by
  unfold jsRound
  exact_mod_cast Int.floor_le (q + 1/2)

theorem lt_jsRound (q : ℚ) : q - 1/2 < (jsRound q : ℚ) := by
  unfold jsRound
  have h := Int.lt_floor_add_one (q + 1/2)
  push_cast at h ⊢
  linarith

/-- On the one-decimal grid the contract update is exact. -/
theorem ctMinus_grid (k m : ℕ) (hm : m ≤ k) :
    ctMinus ((k : ℚ)/10) ((m : ℚ)/10) = ((k - m : ℕ) : ℚ)/10 := by
  unfold ctMinus
  have h1 : ((k : ℚ)/10 - (m : ℚ)/10) * 10 = (((k - m : ℕ) : ℤ) : ℚ) := by
    push_cast [hm]
    ring
  rw [h1, jsRound_intCast]
  norm_num

/-- On the one-decimal grid `Math.round(ct * 10) / 10` is the identity. -/
theorem roundTenth_grid (k : ℕ) : roundTenth ((k : ℚ)/10) = (k : ℚ)/10 := by
  unfold roundTenth
  have h1 : ((k : ℚ)/10) * 10 = ((k : ℤ) : ℚ) := by
    push_cast
    ring
  rw [h1, jsRound_intCast]
  norm_num

theorem flpOf_nonneg (reinv loss : ℚ) (hr : 0 ≤ reinv) (hl : 0 < loss) :
    0 ≤ flpOf reinv loss := by
  unfold flpOf
  exact Int.floor_nonneg.mpr (by positivity)

theorem flpOf_lt_100 (reinv loss : ℚ) (hr : reinv < loss) (hl : 0 < loss) :
    flpOf reinv loss < 100 := by
  unfold flpOf
  rw [Int.floor_lt]
  rw [div_lt_iff₀ hl]
  push_cast
  nlinarith

/-- On the one-decimal grid the harvested step is an integer number of
tenths. -/
theorem roundedStep_grid (reinv loss : ℚ) (k : ℕ) :
    roundedStep reinv loss ((k : ℚ)/10)
      = ((⌊(k : ℚ) * ((flpOf reinv loss : ℤ) : ℚ) / 100⌋ : ℤ) : ℚ)/10 := by
  unfold roundedStep
  congr 2
  ring_nf

/-- Mass conservation on the one-decimal grid: once the remaining contracts
are a nonnegative whole number of tenths, every rounding in the loop is exact
and the emitted steps sum to exactly the remaining contracts.  The hypothesis
`21 ≤ fuel + n` expresses fuel adequacy: the `n > 20` cap fires before the
fuel can run out. -/
theorem falciLoop_sum_grid (tp banda reinv : ℚ) (htp : 0 < tp) (hb : 0 < banda)
    (hr : 0 < reinv) :
    ∀ (fuel n k : ℕ), 1 ≤ n → n ≤ 20 → 21 ≤ fuel + n →
      (falciLoop tp banda reinv fuel ((k : ℚ)/10) n).sum = (k : ℚ)/10 := by
  intro fuel
  induction fuel with
  | zero =>
    intro n k h1 h2 h3
    omega
  | succ fuel ih =>
    intro n k h1 h2 h3
    rcases Nat.eq_zero_or_pos k with hk | hk
    · subst hk
      rw [falciLoop_of_le tp banda reinv _ _ _ (by norm_num)]
      norm_num
    · have hk1 : (1 : ℚ) ≤ (k : ℚ) := by exact_mod_cast hk
      have hct : (1 : ℚ)/20 < (k : ℚ)/10 := by linarith
      have hctpos : (0 : ℚ) < (k : ℚ)/10 := by linarith
      rw [falciLoop_succ, if_pos hct]
      have hloss : 0 < lossAt tp banda ((k : ℚ)/10) n := by
        unfold lossAt
        have hn : (0 : ℚ) ≤ (n : ℚ) := by positivity
        have hta : (0 : ℚ) ≤ tp * (n : ℚ) := mul_nonneg htp.le hn
        exact mul_pos (by linarith) hctpos
      by_cases hcase : reinv < lossAt tp banda ((k : ℚ)/10) n
      · rw [if_pos hcase]
        have hflp0 : 0 ≤ flpOf reinv (lossAt tp banda ((k : ℚ)/10) n) :=
          flpOf_nonneg _ _ hr.le hloss
        have hflp99 : flpOf reinv (lossAt tp banda ((k : ℚ)/10) n) < 100 :=
          flpOf_lt_100 _ _ hcase hloss
        have hflpQ : (0 : ℚ) ≤ ((flpOf reinv (lossAt tp banda ((k : ℚ)/10) n) : ℤ) : ℚ) := by
          exact_mod_cast hflp0
        have hflpQ99 : ((flpOf reinv (lossAt tp banda ((k : ℚ)/10) n) : ℤ) : ℚ) < 100 := by
          exact_mod_cast hflp99
        rw [roundedStep_grid]
        set m : ℤ :=
          ⌊(k : ℚ) * ((flpOf reinv (lossAt tp banda ((k : ℚ)/10) n) : ℤ) : ℚ) / 100⌋ with hmdef
        have hm0 : 0 ≤ m := Int.floor_nonneg.mpr (by positivity)
        have hmk : m < (k : ℤ) := by
          rw [hmdef, Int.floor_lt]
          push_cast
          rw [div_lt_iff₀ (by norm_num : (0:ℚ) < 100)]
          nlinarith
        by_cases hmle : m ≤ 0
        · have hmeq : m = 0 := le_antisymm hmle hm0
          rw [if_pos ⟨by rw [hmeq]; norm_num, hct⟩]
          have hctm : ctMinus ((k : ℚ)/10) (1/10) = ((k - 1 : ℕ) : ℚ)/10 := by
            have h := ctMinus_grid k 1 hk
            norm_num at h
            exact h
          rw [hctm]
          by_cases hcap : 20 < n + 1
          · rw [if_pos hcap]
            rcases Nat.eq_zero_or_pos (k - 1) with h0 | hpos
            · rw [h0]
              have hkone : k = 1 := by omega
              subst hkone
              unfold capTail
              norm_num
            · have hp1 : (1 : ℚ) ≤ ((k - 1 : ℕ) : ℚ) := by exact_mod_cast hpos
              unfold capTail
              rw [if_pos (by linarith : (0:ℚ) < ((k - 1 : ℕ) : ℚ)/10), roundTenth_grid]
              have hcast : ((k - 1 : ℕ) : ℚ) = (k : ℚ) - 1 := by push_cast [hk]; ring
              rw [List.sum_cons, List.sum_singleton, hcast]
              ring
          · rw [if_neg hcap]
            rw [List.sum_cons, ih (n + 1) (k - 1) (by omega) (by omega) (by omega)]
            have hcast : ((k - 1 : ℕ) : ℚ) = (k : ℚ) - 1 := by push_cast [hk]; ring
            rw [hcast]
            ring
        · push_neg at hmle
          have hm1 : (1 : ℚ) ≤ ((m : ℤ) : ℚ) := by exact_mod_cast hmle
          have hmpos : (0 : ℚ) < ((m : ℤ) : ℚ)/10 := by linarith
          rw [if_neg (by push_neg; intro hle; linarith)]
          rw [if_pos hmpos]
          have hmnat : ((m.toNat : ℕ) : ℚ) = ((m : ℤ) : ℚ) := by
            exact_mod_cast Int.toNat_of_nonneg hm0
          have hmlek : m.toNat ≤ k := by omega
          have hctm : ctMinus ((k : ℚ)/10) (((m : ℤ) : ℚ)/10) = ((k - m.toNat : ℕ) : ℚ)/10 := by
            have h := ctMinus_grid k m.toNat hmlek
            rw [hmnat] at h
            exact h
          rw [hctm]
          by_cases hcap : 20 < n + 1
          · rw [if_pos hcap]
            have hpos : 0 < k - m.toNat := by omega
            have hp1 : (1 : ℚ) ≤ ((k - m.toNat : ℕ) : ℚ) := by exact_mod_cast hpos
            unfold capTail
            rw [if_pos (by linarith : (0:ℚ) < ((k - m.toNat : ℕ) : ℚ)/10), roundTenth_grid]
            have hcast : ((k - m.toNat : ℕ) : ℚ) = (k : ℚ) - ((m : ℤ) : ℚ) := by
              push_cast [hmlek]
              rw [hmnat]
            rw [List.sum_cons, List.sum_singleton, hcast]
            ring
          · rw [if_neg hcap]
            rw [List.sum_cons, ih (n + 1) (k - m.toNat) (by omega) (by omega) (by omega)]
            have hcast : ((k - m.toNat : ℕ) : ℚ) = (k : ℚ) - ((m : ℤ) : ℚ) := by
              push_cast [hmlek]
              rw [hmnat]
            rw [hcast]
            ring
      · rw [if_neg hcase]
        rw [roundTenth_grid, if_pos hctpos]
        have htail :
            (if 20 < n then capTail 0
             else falciLoop tp banda reinv fuel 0 n) = [] := by
          split
          · unfold capTail
            norm_num
          · exact falciLoop_of_le tp banda reinv fuel 0 n (by norm_num)
        rw [htail]
        norm_num

theorem capTail_length (ct : ℚ) : (capTail ct).length ≤ 1 := by
  unfold capTail
  split <;> simp

/-- The `n > 20` safety cap bounds the loop: from step counter `n` the loop
emits at most `22 - n` values, for every input (degenerate ones included). -/
theorem falciLoop_length (tp banda reinv : ℚ) :
    ∀ (fuel : ℕ) (ct : ℚ) (n : ℕ), 1 ≤ n → n ≤ 20 →
      (falciLoop tp banda reinv fuel ct n).length ≤ 22 - n := by
  intro fuel
  induction fuel with
  | zero =>
    intro ct n h1 h2
    simp [falciLoop]
  | succ fuel ih =>
    intro ct n h1 h2
    rw [falciLoop_succ]
    split
    · split
      · split
        · simp only [List.length_cons]
          split
          · have h := capTail_length (ctMinus ct (1/10))
            omega
          · have h := ih (ctMinus ct (1/10)) (n + 1) (by omega) (by omega)
            omega
        · split
          · simp only [List.length_cons]
            split
            · have h := capTail_length
                (ctMinus ct (roundedStep reinv (lossAt tp banda ct n) ct))
              omega
            · have h := ih
                (ctMinus ct (roundedStep reinv (lossAt tp banda ct n) ct)) (n + 1)
                (by omega) (by omega)
              omega
          · simp
      · rw [List.length_append]
        have ha : (if 0 < roundTenth ct then [roundTenth ct] else []).length ≤ 1 := by
          split <;> simp
        have hb : (if 20 < n then capTail 0
            else falciLoop tp banda reinv fuel 0 n).length = 0 := by
          split
          · unfold capTail
            norm_num
          · rw [falciLoop_of_le tp banda reinv fuel 0 n (by norm_num)]
            rfl
        omega
    · simp

/-- Entry step: from an arbitrary positive starting quantity the first
iteration moves the remaining contracts onto the one-decimal grid with a
rounding error of at most 0.05, and the grid lemma accounts exactly for the
rest, so the emitted steps sum to the starting contracts within 0.1. -/
theorem falciLoop_sum_entry (tp banda reinv : ℚ) (htp : 0 < tp) (hb : 0 < banda)
    (hr : 0 < reinv) (ct : ℚ) (hct : 0 < ct) :
    |(falciLoop tp banda reinv 25 ct 1).sum - ct| ≤ 1/10 := by
  by_cases hg : ct ≤ 1/20
  · rw [falciLoop_of_le tp banda reinv 25 ct 1 hg]
    rw [List.sum_nil, zero_sub, abs_neg, abs_of_pos hct]
    linarith
  · push_neg at hg
    rw [show (25 : ℕ) = 24 + 1 from rfl, falciLoop_succ, if_pos hg]
    have hloss : 0 < lossAt tp banda ct 1 := by
      unfold lossAt
      push_cast
      nlinarith
    by_cases hcase : reinv < lossAt tp banda ct 1
    · rw [if_pos hcase]
      have hflp0 : 0 ≤ flpOf reinv (lossAt tp banda ct 1) :=
        flpOf_nonneg _ _ hr.le hloss
      have hflp99 : flpOf reinv (lossAt tp banda ct 1) < 100 :=
        flpOf_lt_100 _ _ hcase hloss
      have hflpQ : (0 : ℚ) ≤ ((flpOf reinv (lossAt tp banda ct 1) : ℤ) : ℚ) := by
        exact_mod_cast hflp0
      have hflpQ99 : ((flpOf reinv (lossAt tp banda ct 1) : ℤ) : ℚ) < 100 := by
        exact_mod_cast hflp99
      have hR0 : 0 ≤ roundedStep reinv (lossAt tp banda ct 1) ct := by
        unfold roundedStep
        have : (0 : ℤ) ≤ ⌊ct * ((flpOf reinv (lossAt tp banda ct 1) : ℤ) : ℚ) / 100 * 10⌋ :=
          Int.floor_nonneg.mpr (by positivity)
        have h10 : (0 : ℚ) ≤ ((⌊ct * ((flpOf reinv (lossAt tp banda ct 1) : ℤ) : ℚ) / 100 * 10⌋ : ℤ) : ℚ) := by
          exact_mod_cast this
        linarith
      have hRlt : roundedStep reinv (lossAt tp banda ct 1) ct < ct := by
        unfold roundedStep
        have hfl : ((⌊ct * ((flpOf reinv (lossAt tp banda ct 1) : ℤ) : ℚ) / 100 * 10⌋ : ℤ) : ℚ)
            ≤ ct * ((flpOf reinv (lossAt tp banda ct 1) : ℤ) : ℚ) / 100 * 10 :=
          Int.floor_le _
        nlinarith
      by_cases hforce : roundedStep reinv (lossAt tp banda ct 1) ct ≤ 0 ∧ 1/20 < ct
      · rw [if_pos hforce, if_neg (by norm_num : ¬ 20 < 1 + 1)]
        set j := jsRound ((ct - 1/10) * 10) with hjdef
        have hj0 : 0 ≤ j := by
          rw [hjdef]
          unfold jsRound
          apply Int.floor_nonneg.mpr
          linarith
        have hjnat : ((j.toNat : ℕ) : ℚ) = ((j : ℤ) : ℚ) := by
          exact_mod_cast Int.toNat_of_nonneg hj0
        have hctm : ctMinus ct (1/10) = ((j.toNat : ℕ) : ℚ)/10 := by
          unfold ctMinus
          rw [← hjdef, hjnat]
        rw [hctm, List.sum_cons,
          falciLoop_sum_grid tp banda reinv htp hb hr 24 2 j.toNat
            (by omega) (by omega) (by omega)]
        have hjb1 : ((j : ℤ) : ℚ) ≤ (ct - 1/10) * 10 + 1/2 := by
          rw [hjdef]; exact jsRound_le _
        have hjb2 : (ct - 1/10) * 10 - 1/2 < ((j : ℤ) : ℚ) := by
          rw [hjdef]; exact lt_jsRound _
        rw [hjnat, abs_le]
        constructor <;> linarith
      · rw [if_neg hforce]
        have hRpos : 0 < roundedStep reinv (lossAt tp banda ct 1) ct := by
          rcases not_and_or.mp hforce with h | h
          · exact lt_of_not_le h
          · exact absurd hg h
        rw [if_pos hRpos, if_neg (by norm_num : ¬ 20 < 1 + 1)]
        set R := roundedStep reinv (lossAt tp banda ct 1) ct with hRdef
        set j := jsRound ((ct - R) * 10) with hjdef
        have hj0 : 0 ≤ j := by
          rw [hjdef]
          unfold jsRound
          apply Int.floor_nonneg.mpr
          nlinarith
        have hjnat : ((j.toNat : ℕ) : ℚ) = ((j : ℤ) : ℚ) := by
          exact_mod_cast Int.toNat_of_nonneg hj0
        have hctm : ctMinus ct R = ((j.toNat : ℕ) : ℚ)/10 := by
          unfold ctMinus
          rw [← hjdef, hjnat]
        rw [hctm, List.sum_cons,
          falciLoop_sum_grid tp banda reinv htp hb hr 24 2 j.toNat
            (by omega) (by omega) (by omega)]
        have hjb1 : ((j : ℤ) : ℚ) ≤ (ct - R) * 10 + 1/2 := by
          rw [hjdef]; exact jsRound_le _
        have hjb2 : (ct - R) * 10 - 1/2 < ((j : ℤ) : ℚ) := by
          rw [hjdef]; exact lt_jsRound _
        rw [hjnat, abs_le]
        constructor <;> linarith
    · rw [if_neg hcase]
      have hone : (1 : ℤ) ≤ jsRound (ct * 10) := by
        unfold jsRound
        apply Int.le_floor.mpr
        push_cast
        linarith
      have honeQ : (1 : ℚ) ≤ ((jsRound (ct * 10) : ℤ) : ℚ) := by exact_mod_cast hone
      have hrt : 0 < roundTenth ct := by
        unfold roundTenth
        linarith
      rw [if_pos hrt, if_neg (by norm_num : ¬ 20 < 1),
        falciLoop_of_le tp banda reinv 24 0 1 (by norm_num)]
      have hb1 : ((jsRound (ct * 10) : ℤ) : ℚ) ≤ ct * 10 + 1/2 := jsRound_le _
      have hb2 : ct * 10 - 1/2 < ((jsRound (ct * 10) : ℤ) : ℚ) := lt_jsRound _
      unfold roundTenth
      simp only [List.sum_append, List.sum_cons, List.sum_nil, add_zero]
      rw [abs_le]
      constructor <;> linarith

/-- C1: the harvest-sequence planner is deterministic (it is a pure function
of its four arguments, so identical inputs yield the identical sequence on
every call), and `plan(totalContracts = 1, targetPoints = 10, bandDivisor = 2,
harvestFraction = 0.5)` returns exactly the sequence
`[0.3, 0.1, 0.1, 0.1, 0.1, 0.1, 0.1, 0.1]` (8 steps summing to 1.0). -/
theorem calculateFalciArray_plan_one :
    calculateFalciArray 1 10 2 (1/2)
      = [3/10, 1/10, 1/10, 1/10, 1/10, 1/10, 1/10, 1/10] := by
  rw [calculateFalciArray]
  norm_num
  rw [show (25 : ℕ) = 24 + 1 from rfl, falciLoop_succ]
  norm_num [lossAt, flpOf, roundedStep, ctMinus, roundTenth, jsRound, capTail]
  rw [show (24 : ℕ) = 23 + 1 from rfl, falciLoop_succ]
  norm_num [lossAt, flpOf, roundedStep, ctMinus, roundTenth, jsRound, capTail]
  rw [show (23 : ℕ) = 22 + 1 from rfl, falciLoop_succ]
  norm_num [lossAt, flpOf, roundedStep, ctMinus, roundTenth, jsRound, capTail]
  rw [show (22 : ℕ) = 21 + 1 from rfl, falciLoop_succ]
  norm_num [lossAt, flpOf, roundedStep, ctMinus, roundTenth, jsRound, capTail]
  rw [show (21 : ℕ) = 20 + 1 from rfl, falciLoop_succ]
  norm_num [lossAt, flpOf, roundedStep, ctMinus, roundTenth, jsRound, capTail]
  rw [show (20 : ℕ) = 19 + 1 from rfl, falciLoop_succ]
  norm_num [lossAt, flpOf, roundedStep, ctMinus, roundTenth, jsRound, capTail]
  rw [show (19 : ℕ) = 18 + 1 from rfl, falciLoop_succ]
  norm_num [lossAt, flpOf, roundedStep, ctMinus, roundTenth, jsRound, capTail]
  rw [show (18 : ℕ) = 17 + 1 from rfl, falciLoop_succ]
  norm_num [lossAt, flpOf, roundedStep, ctMinus, roundTenth, jsRound, capTail]
  rw [show (17 : ℕ) = 16 + 1 from rfl, falciLoop_succ]
  norm_num [lossAt, flpOf, roundedStep, ctMinus, roundTenth, jsRound, capTail]

/-- C3: planner mass conservation.  For every valid input (positive contracts,
positive target points, positive band divisor, harvest fraction in `(0, 1]`)
the sum of the returned sequence equals `totalContracts` to within 0.1. -/
theorem calculateFalciArray_mass_conservation
    (contracts tpPoints orderDistanceDivisor harvestPct : ℚ)
    (hc : 0 < contracts) (htp : 0 < tpPoints) (hodd : 0 < orderDistanceDivisor)
    (hhp0 : 0 < harvestPct) (hhp1 : harvestPct ≤ 1) :
    |(calculateFalciArray contracts tpPoints orderDistanceDivisor harvestPct).sum
      - contracts| ≤ 1/10 := by
  unfold calculateFalciArray
  exact falciLoop_sum_entry tpPoints (tpPoints / orderDistanceDivisor)
    (contracts * tpPoints * harvestPct) htp (div_pos htp hodd) (by positivity)
    contracts hc

/-- Witness for C3 at the concrete input `plan(1, 10, 2, 0.5)`. -/
theorem calculateFalciArray_mass_conservation_witness :
    |(calculateFalciArray 1 10 2 (1/2)).sum - 1| ≤ 1/10 :=
  calculateFalciArray_mass_conservation 1 10 2 (1/2) (by norm_num) (by norm_num)
    (by norm_num) (by norm_num) (by norm_num)

/-- C4: the planner terminates with a bounded output on every input, valid or
degenerate: the 20-step safety cap (plus the one remainder step it may emit)
bounds the returned sequence by 21 entries. -/
theorem calculateFalciArray_length_le
    (contracts tpPoints orderDistanceDivisor harvestPct : ℚ) :
    (calculateFalciArray contracts tpPoints orderDistanceDivisor harvestPct).length
      ≤ 21 := by
  unfold calculateFalciArray
  have h := falciLoop_length tpPoints (tpPoints / orderDistanceDivisor)
    (contracts * tpPoints * harvestPct) 25 contracts 1 (by norm_num) (by norm_num)
  omega

/-- C7 counterexample: with the degenerate band divisor 0 and positive
contracts the planner does NOT return an empty sequence — the first harvesting
iteration already emits a step, refuting the claim that degenerate parameters
yield an empty sequence. -/
theorem calculateFalciArray_zero_divisor_counterexample :
    calculateFalciArray 1 10 0 (1/2) ≠ [] := by
  rw [calculateFalciArray]
  norm_num
  rw [show (25 : ℕ) = 24 + 1 from rfl, falciLoop_succ]
  norm_num [lossAt, flpOf, roundedStep, ctMinus, roundTenth, jsRound, capTail]
  exact List.cons_ne_nil _ _

/-- C7 amended: for non-positive contracts the planner returns the empty
sequence (the `while (ct > 0.05)` guard fails immediately); a degenerate band
divisor alone does not make the output empty. -/
theorem calculateFalciArray_nonpositive_contracts_empty
    (contracts tpPoints orderDistanceDivisor harvestPct : ℚ)
    (hc : contracts ≤ 0) :
    calculateFalciArray contracts tpPoints orderDistanceDivisor harvestPct = [] := by
  unfold calculateFalciArray
  exact falciLoop_of_le _ _ _ _ _ _ (by linarith)

/-- Witness for the amended C7 at contracts = 0. -/
theorem calculateFalciArray_nonpositive_contracts_empty_witness :
    calculateFalciArray 0 10 2 (1/2) = [] :=
  calculateFalciArray_nonpositive_contracts_empty 0 10 2 (1/2) (by norm_num)

/-! Entity-store data model, following `trading.types.ts`.  Optional fields
are `Option`; `Date` fields are kept as opaque strings. -/

inductive Direction where
  | LONG
  | SHORT
deriving DecidableEq, Repr

inductive OrderStatus where
  | PENDING
  | FILLED
  | CANCELLED
deriving DecidableEq, Repr

inductive OrderKind where
  | MARKET
  | LIMIT
  | STOP
deriving DecidableEq, Repr

structure Position where
  id : String
  epic : String
  instrument : String
  direction : Direction
  contracts : ℚ
  openPrice : ℚ
  currentPrice : Option ℚ
  pnl : Option ℚ
  tpLevel : Option ℚ
  phase : String
  openedAt : String
deriving DecidableEq, Repr

structure Order where
  id : String
  epic : String
  instrument : String
  direction : Direction
  kind : OrderKind
  contracts : ℚ
  entryPrice : ℚ
  tpLevel : Option ℚ
  status : OrderStatus
  createdAt : String
deriving DecidableEq, Repr

/-- The `SystemStatus` singleton as initialised and updated by
`useWebSocket` (fields of the initial state at the top of the hook). -/
structure SystemStatus where
  status : String
  igConnected : Bool
  lightstreamerConnected : Bool
  sessionAge : Option String
  uptime : Option String
  lastUpdateAt : Option String
  secondsSinceUpdate : Option ℚ
deriving DecidableEq, Repr

/-- Payload of a `SYSTEM_STATUS` frame: every field may be absent. -/
structure SystemStatusData where
  status : Option String
  igConnected : Option Bool
  lightstreamerConnected : Option Bool
  sessionAge : Option String
  uptime : Option String
  lastUpdateAt : Option String
  secondsSinceUpdate : Option ℚ
deriving DecidableEq, Repr

/-- Payload of a `MARKET_PRICE_UPDATE` frame: the instrument key and the two
quote sides, either of which may be absent. -/
structure MarketPriceData where
  epic : String
  bid : Option ℚ
  offer : Option ℚ
deriving DecidableEq, Repr

/-- JavaScript truthiness of an optional number: `undefined`, `null` and `0`
are falsy. -/
def truthyNum : Option ℚ → Bool
  | none => false
  | some v => v != 0

/-- The `SYSTEM_STATUS` reducer of `handleMessage`: `status` falls back to the
previous value when the incoming one is falsy (`data.status || prev.status`),
the two connectivity booleans fall back when the incoming one is `undefined`
(explicit `!== undefined` checks), and the remaining four fields are written
unconditionally from the message (absent incoming values overwrite with
`undefined`). -/
def handleSystemStatus (data : SystemStatusData) (prev : SystemStatus) :
    SystemStatus :=
  { status := match data.status with
      | some s => if s = "" then prev.status else s
      | none => prev.status
    igConnected := match data.igConnected with
      | some b => b
      | none => prev.igConnected
    lightstreamerConnected := match data.lightstreamerConnected with
      | some b => b
      | none => prev.lightstreamerConnected
    sessionAge := data.sessionAge
    uptime := data.uptime
    lastUpdateAt := data.lastUpdateAt
    secondsSinceUpdate := data.secondsSinceUpdate }

/-- The `ORDER_UPDATE` reducer of `handleMessage`: a terminal incoming status
(`CANCELLED` or `FILLED`) removes the entry with that id; otherwise the order
is upserted by id (`findIndex` then replace in place, else append). -/
def handleOrderUpdate (data : Order) (prev : List Order) : List Order :=
  if data.status = OrderStatus.CANCELLED ∨ data.status = OrderStatus.FILLED then
    prev.filter (fun o => o.id != data.id)
  else
    match prev.findIdx? (fun o => o.id == data.id) with
    | some i => prev.set i data
    | none => prev ++ [data]

/-- Per-position action of the `MARKET_PRICE_UPDATE` reducer, returning the
(possibly updated) position together with the `updated` flag contribution:
on an epic match the exit-relevant quote side is selected by direction
(`bid` for LONG, `offer` for SHORT) and written to `currentPrice` only when
both that quote and the position's `openPrice` are truthy. -/
def quoteFor (pos : Position) (bid offer : Option ℚ) : Option ℚ :=
  if pos.direction = Direction.LONG then bid else offer

def marketPricePos (epic : String) (bid offer : Option ℚ) (pos : Position) :
    Position × Bool :=
  if pos.epic = epic then
    if truthyNum (quoteFor pos bid offer) ∧ pos.openPrice ≠ 0 then
      ({ pos with currentPrice := quoteFor pos bid offer }, true)
    else (pos, false)
  else (pos, false)

/-- The `MARKET_PRICE_UPDATE` reducer of `handleMessage`: maps
`marketPricePos` over the collection and returns the previous collection
object unchanged when no position was updated. -/
def handleMarketPriceUpdate (data : MarketPriceData) (prev : List Position) :
    List Position :=
  if (prev.map (marketPricePos data.epic data.bid data.offer)).any (fun r => r.2) then
    (prev.map (marketPricePos data.epic data.bid data.offer)).map (fun r => r.1)
  else prev

theorem marketPricePos_fst_of_not_snd (epic : String) (bid offer : Option ℚ)
    (pos : Position) (h : (marketPricePos epic bid offer pos).2 = false) :
    (marketPricePos epic bid offer pos).1 = pos := by
  unfold marketPricePos at h ⊢
  split_ifs at h ⊢ with h1 h2 <;> simp_all

/-- The `updated ? newPositions : prev` shortcut of the source is extensionally
the plain map: when no position updates, the mapped list is the previous
list. -/
theorem handleMarketPriceUpdate_eq_map (data : MarketPriceData)
    (prev : List Position) :
    handleMarketPriceUpdate data prev
      = prev.map (fun pos => (marketPricePos data.epic data.bid data.offer pos).1) := by
  unfold handleMarketPriceUpdate
  split
  · rw [List.map_map]
    rfl
  · rename_i h
    rw [List.any_eq_true] at h
    push_neg at h
    induction prev with
    | nil => rfl
    | cons p ps ih =>
      rw [List.map_cons]
      have hp : (marketPricePos data.epic data.bid data.offer p).2 = false := by
        have := h (marketPricePos data.epic data.bid data.offer p)
          (by rw [List.map_cons]; exact List.mem_cons_self _ _)
        simpa using this
      rw [marketPricePos_fst_of_not_snd _ _ _ _ hp]
      have hps := ih (fun x hx => h x (by rw [List.map_cons]; exact List.mem_cons_of_mem _ hx))
      rw [← hps]

/-- C2 counterexample: the claim as stated fails.  A `MARKET_PRICE_UPDATE`
carrying both quote sides for epic `X` does not update a matching LONG
position whose `openPrice` is 0 (falsy), because the reducer guards the write
with `if (currentPrice && pos.openPrice)`: `currentPrice` stays `some 50`,
not the incoming bid `some 100`. -/
theorem marketPriceUpdate_counterexample :
    handleMarketPriceUpdate { epic := "X", bid := some 100, offer := some 101 }
      [{ id := "P1", epic := "X", instrument := "DAX", direction := Direction.LONG,
         contracts := 1, openPrice := 0, currentPrice := some 50, pnl := some 5,
         tpLevel := none, phase := "RUN", openedAt := "t0" }]
      = [{ id := "P1", epic := "X", instrument := "DAX", direction := Direction.LONG,
           contracts := 1, openPrice := 0, currentPrice := some 50, pnl := some 5,
           tpLevel := none, phase := "RUN", openedAt := "t0" }]
    ∧ (some (50 : ℚ)) ≠ some 100 := by
  constructor
  · decide
  · decide

/-- C2 amended: a `MARKET_PRICE_UPDATE` for instrument `X` acts positionwise
(so the collection keeps its length and order); it never changes any
position's profit/loss field; it leaves every position whose instrument key
differs from `X` entirely unchanged; and it updates `currentPrice` to the
direction-selected quote side (bid for LONG, offer for SHORT) on every
matching position — provided that quote is present and non-zero and the
position's `openPrice` is non-zero (the reducer's truthiness guard, which the
original claim omitted). -/
theorem marketPriceUpdate_amended (prev : List Position) (data : MarketPriceData) :
    handleMarketPriceUpdate data prev
      = prev.map (fun pos => (marketPricePos data.epic data.bid data.offer pos).1)
    ∧ ∀ pos : Position,
      (marketPricePos data.epic data.bid data.offer pos).1.pnl = pos.pnl
      ∧ (pos.epic ≠ data.epic → (marketPricePos data.epic data.bid data.offer pos).1 = pos)
      ∧ (pos.epic = data.epic → ∀ v : ℚ, quoteFor pos data.bid data.offer = some v →
          v ≠ 0 → pos.openPrice ≠ 0 →
          (marketPricePos data.epic data.bid data.offer pos).1
            = { pos with currentPrice := some v }) := by
  refine ⟨handleMarketPriceUpdate_eq_map data prev, fun pos => ⟨?_, ?_, ?_⟩⟩
  · unfold marketPricePos
    split
    · split
      · rfl
      · rfl
    · rfl
  · intro hne
    unfold marketPricePos
    rw [if_neg hne]
  · intro heq v hq hv hop
    unfold marketPricePos
    rw [if_pos heq, if_pos ⟨by rw [hq]; simpa [truthyNum] using hv, hop⟩, hq]

/-- Witness for the amended C2: a matching LONG position with non-zero open
price and a non-zero bid gets `currentPrice := bid` and keeps its
profit/loss. -/
theorem marketPriceUpdate_amended_witness :
    handleMarketPriceUpdate { epic := "X", bid := some 99, offer := some 101 }
      [{ id := "P1", epic := "X", instrument := "DAX", direction := Direction.LONG,
         contracts := 1, openPrice := 100, currentPrice := some 50, pnl := some 5,
         tpLevel := none, phase := "RUN", openedAt := "t0" }]
      = [{ id := "P1", epic := "X", instrument := "DAX", direction := Direction.LONG,
           contracts := 1, openPrice := 100, currentPrice := some 99, pnl := some 5,
           tpLevel := none, phase := "RUN", openedAt := "t0" }] := by
  have h := marketPriceUpdate_amended
    [{ id := "P1", epic := "X", instrument := "DAX", direction := Direction.LONG,
       contracts := 1, openPrice := 100, currentPrice := some 50, pnl := some 5,
       tpLevel := none, phase := "RUN", openedAt := "t0" }]
    { epic := "X", bid := some 99, offer := some 101 }
  rw [h.1, List.map_cons, List.map_nil,
    (h.2 _).2.2 (by decide) 99 (by decide) (by decide) (by decide)]

/-- C5 counterexample: the claim as stated fails.  The `SYSTEM_STATUS`
reducer is not a field-wise merge on all fields: an update carrying only
`secondsSinceUpdate = 42` — precisely the shape used in the claim's own
example — clobbers a previously stored `lastUpdateAt`, because that field is
written unconditionally from the message. -/
theorem systemStatus_counterexample :
    (handleSystemStatus
      { status := none, igConnected := none, lightstreamerConnected := none,
        sessionAge := none, uptime := none, lastUpdateAt := none,
        secondsSinceUpdate := some 42 }
      { status := "ACTIVE", igConnected := true, lightstreamerConnected := false,
        sessionAge := none, uptime := none,
        lastUpdateAt := some "2024-01-01T00:00:00Z",
        secondsSinceUpdate := none }).lastUpdateAt
      ≠ some "2024-01-01T00:00:00Z" := by
  decide

/-- C5 amended: the `SYSTEM_STATUS` reducer merges field-wise only for
`status` (an absent or empty incoming string keeps the previous value),
`igConnected` and `lightstreamerConnected` (an absent incoming boolean keeps
the previous value); the four remaining fields (`sessionAge`, `uptime`,
`lastUpdateAt`, `secondsSinceUpdate`) are always overwritten with the
incoming value, absent meaning `undefined`.  In particular the claim's
concrete example does hold: from `{status := "ACTIVE", igConnected := true}`,
an update carrying only `{secondsSinceUpdate := 42}` leaves `status` and
`igConnected` unchanged and sets `secondsSinceUpdate` to 42. -/
theorem systemStatus_merge_amended (data : SystemStatusData) (prev : SystemStatus) :
    (data.status = none → (handleSystemStatus data prev).status = prev.status)
    ∧ (data.status = some "" → (handleSystemStatus data prev).status = prev.status)
    ∧ (∀ s, data.status = some s → s ≠ "" → (handleSystemStatus data prev).status = s)
    ∧ (data.igConnected = none →
        (handleSystemStatus data prev).igConnected = prev.igConnected)
    ∧ (∀ b, data.igConnected = some b → (handleSystemStatus data prev).igConnected = b)
    ∧ (data.lightstreamerConnected = none →
        (handleSystemStatus data prev).lightstreamerConnected
          = prev.lightstreamerConnected)
    ∧ (∀ b, data.lightstreamerConnected = some b →
        (handleSystemStatus data prev).lightstreamerConnected = b)
    ∧ (handleSystemStatus data prev).sessionAge = data.sessionAge
    ∧ (handleSystemStatus data prev).uptime = data.uptime
    ∧ (handleSystemStatus data prev).lastUpdateAt = data.lastUpdateAt
    ∧ (handleSystemStatus data prev).secondsSinceUpdate = data.secondsSinceUpdate := by
  unfold handleSystemStatus
  refine ⟨?_, ?_, ?_, ?_, ?_, ?_, ?_, rfl, rfl, rfl, rfl⟩
  · intro h
    rw [h]
  · intro h
    rw [h]
    simp
  · intro s h hs
    rw [h]
    simp [hs]
  · intro h
    rw [h]
  · intro b h
    rw [h]
  · intro h
    rw [h]
  · intro b h
    rw [h]

/-- Witness for the amended C5 at the claim's concrete example: state
`{status := "ACTIVE", igConnected := true}` plus an update carrying only
`{secondsSinceUpdate := 42}` keeps `status` and `igConnected` and sets
`secondsSinceUpdate` to 42. -/
theorem systemStatus_merge_amended_witness :
    (handleSystemStatus
      { status := none, igConnected := none, lightstreamerConnected := none,
        sessionAge := none, uptime := none, lastUpdateAt := none,
        secondsSinceUpdate := some 42 }
      { status := "ACTIVE", igConnected := true, lightstreamerConnected := false,
        sessionAge := none, uptime := none, lastUpdateAt := none,
        secondsSinceUpdate := none }).status = "ACTIVE"
    ∧ (handleSystemStatus
      { status := none, igConnected := none, lightstreamerConnected := none,
        sessionAge := none, uptime := none, lastUpdateAt := none,
        secondsSinceUpdate := some 42 }
      { status := "ACTIVE", igConnected := true, lightstreamerConnected := false,
        sessionAge := none, uptime := none, lastUpdateAt := none,
        secondsSinceUpdate := none }).igConnected = true
    ∧ (handleSystemStatus
      { status := none, igConnected := none, lightstreamerConnected := none,
        sessionAge := none, uptime := none, lastUpdateAt := none,
        secondsSinceUpdate := some 42 }
      { status := "ACTIVE", igConnected := true, lightstreamerConnected := false,
        sessionAge := none, uptime := none, lastUpdateAt := none,
        secondsSinceUpdate := none }).secondsSinceUpdate = some 42 := by
  have h := systemStatus_merge_amended
    { status := none, igConnected := none, lightstreamerConnected := none,
      sessionAge := none, uptime := none, lastUpdateAt := none,
      secondsSinceUpdate := some 42 }
    { status := "ACTIVE", igConnected := true, lightstreamerConnected := false,
      sessionAge := none, uptime := none, lastUpdateAt := none,
      secondsSinceUpdate := none }
  exact ⟨h.1 rfl, h.2.2.2.1 rfl, h.2.2.2.2.2.2.2.2.2.2⟩

/-- C6: the `ORDER_UPDATE` reducer.  A terminal incoming status (`FILLED` or
`CANCELLED`) removes the entry with that id and is a no-op when no entry has
that id; a non-terminal status upserts by id: replaced in place when an entry
with the id exists, appended otherwise.  In particular, from a collection
holding only the PENDING order `O1`, a FILLED update for `O1` empties the
collection, and a CANCELLED update for an unknown id is a no-op. -/
theorem orderUpdate_spec (prev : List Order) (data : Order) :
    ((data.status = OrderStatus.FILLED ∨ data.status = OrderStatus.CANCELLED) →
      handleOrderUpdate data prev = prev.filter (fun o => o.id != data.id)
      ∧ ((∀ o ∈ prev, o.id ≠ data.id) → handleOrderUpdate data prev = prev))
    ∧ (data.status ≠ OrderStatus.FILLED → data.status ≠ OrderStatus.CANCELLED →
      (∀ i : ℕ, prev.findIdx? (fun o => o.id == data.id) = some i →
        handleOrderUpdate data prev = prev.set i data)
      ∧ (prev.findIdx? (fun o => o.id == data.id) = none →
        handleOrderUpdate data prev = prev ++ [data]))
    ∧ handleOrderUpdate
        { id := "O1", epic := "EP", instrument := "DAX", direction := Direction.LONG,
          kind := OrderKind.LIMIT, contracts := 1, entryPrice := 100, tpLevel := none,
          status := OrderStatus.FILLED, createdAt := "t1" }
        [{ id := "O1", epic := "EP", instrument := "DAX", direction := Direction.LONG,
           kind := OrderKind.LIMIT, contracts := 1, entryPrice := 100, tpLevel := none,
           status := OrderStatus.PENDING, createdAt := "t0" }] = []
    ∧ handleOrderUpdate
        { id := "UNKNOWN", epic := "EP", instrument := "DAX", direction := Direction.LONG,
          kind := OrderKind.LIMIT, contracts := 1, entryPrice := 100, tpLevel := none,
          status := OrderStatus.CANCELLED, createdAt := "t1" }
        [{ id := "O1", epic := "EP", instrument := "DAX", direction := Direction.LONG,
           kind := OrderKind.LIMIT, contracts := 1, entryPrice := 100, tpLevel := none,
           status := OrderStatus.PENDING, createdAt := "t0" }]
      = [{ id := "O1", epic := "EP", instrument := "DAX", direction := Direction.LONG,
           kind := OrderKind.LIMIT, contracts := 1, entryPrice := 100, tpLevel := none,
           status := OrderStatus.PENDING, createdAt := "t0" }] := by
  refine ⟨?_, ?_, by decide, by decide⟩
  · intro hterm
    have hcond : data.status = OrderStatus.CANCELLED ∨ data.status = OrderStatus.FILLED :=
      hterm.symm
    constructor
    · unfold handleOrderUpdate
      rw [if_pos hcond]
    · intro habs
      unfold handleOrderUpdate
      rw [if_pos hcond]
      apply List.filter_eq_self.mpr
      intro o ho
      simpa using habs o ho
  · intro hf hc
    have hcond : ¬ (data.status = OrderStatus.CANCELLED ∨ data.status = OrderStatus.FILLED) := by
      rintro (h | h)
      · exact hc h
      · exact hf h
    constructor
    · intro i hidx
      unfold handleOrderUpdate
      rw [if_neg hcond, hidx]
    · intro hidx
      unfold handleOrderUpdate
      rw [if_neg hcond, hidx]

/-- Witness for C6: exercises the terminal-removal and upsert cases of
`orderUpdate_spec` at concrete inputs, discharging each hypothesis. -/
theorem orderUpdate_spec_witness :
    handleOrderUpdate
      { id := "O2", epic := "EP", instrument := "DAX", direction := Direction.SHORT,
        kind := OrderKind.STOP, contracts := 2, entryPrice := 50, tpLevel := none,
        status := OrderStatus.PENDING, createdAt := "t1" }
      [{ id := "O1", epic := "EP", instrument := "DAX", direction := Direction.LONG,
         kind := OrderKind.LIMIT, contracts := 1, entryPrice := 100, tpLevel := none,
         status := OrderStatus.PENDING, createdAt := "t0" }]
      = [{ id := "O1", epic := "EP", instrument := "DAX", direction := Direction.LONG,
           kind := OrderKind.LIMIT, contracts := 1, entryPrice := 100, tpLevel := none,
           status := OrderStatus.PENDING, createdAt := "t0" },
         { id := "O2", epic := "EP", instrument := "DAX", direction := Direction.SHORT,
           kind := OrderKind.STOP, contracts := 2, entryPrice := 50, tpLevel := none,
           status := OrderStatus.PENDING, createdAt := "t1" }] := by
  have h := orderUpdate_spec
    [{ id := "O1", epic := "EP", instrument := "DAX", direction := Direction.LONG,
       kind := OrderKind.LIMIT, contracts := 1, entryPrice := 100, tpLevel := none,
       status := OrderStatus.PENDING, createdAt := "t0" }]
    { id := "O2", epic := "EP", instrument := "DAX", direction := Direction.SHORT,
      kind := OrderKind.STOP, contracts := 2, entryPrice := 50, tpLevel := none,
      status := OrderStatus.PENDING, createdAt := "t1" }
  rw [(h.2.1 (by decide) (by decide)).2 (by decide)]
  rfl

/-! Snapshot loaders.  A request/response interaction is modelled by its
observable outcome: the fetch (or the body parse) threw, the response was
not OK, or a body was obtained.  For the initial load the relevant body value
is `positionsResponse.data || positionsResponse` after the `Array.isArray`
test, modelled as `Option (List α)` (`none` when that value is not an
array); for the manual refresh endpoints the body is the
`{ success, data }` envelope, with `data` as `Option (List α)` (`none` when
absent or not an array). -/

/-- Outcome of one initial-load fetch. -/
inductive SnapshotOutcome (α : Type) where
  | threw
  | notOk
  | ok (payload : Option (List α))
deriving DecidableEq

/-- Per-collection behaviour of the initial loader `fetchInitialData`:
on an OK response whose resolved payload is an array, the collection is
replaced only when that array is non-empty (`positionsData.length > 0`);
every other outcome leaves the collection untouched. -/
def loadInitialCollection {α : Type} (resp : SnapshotOutcome α) (prev : List α) :
    List α :=
  match resp with
  | SnapshotOutcome.threw => prev
  | SnapshotOutcome.notOk => prev
  | SnapshotOutcome.ok none => prev
  | SnapshotOutcome.ok (some d) => if 0 < d.length then d else prev

/-- The positions/orders part of `fetchInitialData`: the two fetches run in
sequence inside one `try`; an exception in the positions fetch aborts the
function, skipping the orders fetch, so both collections stay as they were. -/
def fetchInitialData (posResp : SnapshotOutcome Position)
    (ordResp : SnapshotOutcome Order) (prevPos : List Position)
    (prevOrd : List Order) : List Position × List Order :=
  match posResp with
  | SnapshotOutcome.threw => (prevPos, prevOrd)
  | _ => (loadInitialCollection posResp prevPos, loadInitialCollection ordResp prevOrd)

/-- Outcome of one manual-refresh fetch: threw, not OK, or an envelope
`{ success, data }`. -/
inductive RefreshOutcome (α : Type) where
  | threw
  | notOk
  | ok (success : Bool) (data : Option (List α))
deriving DecidableEq

/-- `refreshPositions` of `useWebSocket`: returns `false` with the collection
untouched when `apiUrl` is falsy, when the fetch throws, when the response is
not OK, or when the envelope lacks `success && Array.isArray(data)`; replaces
the collection wholesale and returns `true` otherwise. -/
def refreshPositions (apiUrl : String) (resp : RefreshOutcome Position)
    (prev : List Position) : List Position × Bool :=
  if apiUrl = "" then (prev, false)
  else
    match resp with
    | RefreshOutcome.threw => (prev, false)
    | RefreshOutcome.notOk => (prev, false)
    | RefreshOutcome.ok success data =>
      match success, data with
      | true, some d => (d, true)
      | _, _ => (prev, false)

/-- `refreshOrders` of `useWebSocket`: identical shape to `refreshPositions`
over the orders collection. -/
def refreshOrders (apiUrl : String) (resp : RefreshOutcome Order)
    (prev : List Order) : List Order × Bool :=
  if apiUrl = "" then (prev, false)
  else
    match resp with
    | RefreshOutcome.threw => (prev, false)
    | RefreshOutcome.notOk => (prev, false)
    | RefreshOutcome.ok success data =>
      match success, data with
      | true, some d => (d, true)
      | _, _ => (prev, false)

/-- C8: every failing snapshot refresh — transport error, non-OK response, or
an envelope with `success: false` — leaves the existing collection exactly as
it was and signals failure (`false`) to the caller, for both the positions
and the orders refresh; the `catch` branch means no exception escapes (the
model is a total function). -/
theorem refresh_failure_preserves (apiUrl : String) :
    (∀ prev : List Position,
      refreshPositions apiUrl RefreshOutcome.threw prev = (prev, false)
      ∧ refreshPositions apiUrl RefreshOutcome.notOk prev = (prev, false)
      ∧ ∀ data, refreshPositions apiUrl (RefreshOutcome.ok false data) prev
          = (prev, false))
    ∧ ∀ prev : List Order,
      refreshOrders apiUrl RefreshOutcome.threw prev = (prev, false)
      ∧ refreshOrders apiUrl RefreshOutcome.notOk prev = (prev, false)
      ∧ ∀ data, refreshOrders apiUrl (RefreshOutcome.ok false data) prev
          = (prev, false) := by
  constructor
  · intro prev
    refine ⟨?_, ?_, ?_⟩ <;>
      · unfold refreshPositions
        first
        | (split <;> rfl)
        | (intro data; split <;> rfl)
  · intro prev
    refine ⟨?_, ?_, ?_⟩ <;>
      · unfold refreshOrders
        first
        | (split <;> rfl)
        | (intro data; split <;> rfl)

/-- C10: on the initial load, a successful snapshot whose payload is the
empty array does not replace the existing collections — the loader only
replaces when `positionsData.length > 0` (resp. orders) — so an empty
server-side collection never clears previously-known local entries via this
path. -/
theorem initialLoad_empty_preserves (prevPos : List Position) (prevOrd : List Order) :
    fetchInitialData (SnapshotOutcome.ok (some []))
      (SnapshotOutcome.ok (some [])) prevPos prevOrd = (prevPos, prevOrd) := by
  rfl

/-! Connection-effect lifecycle.  The WebSocket effect of `useWebSocket`
installs an `onclose` handler that sets the connected flag to false and
schedules a reconnection `setTimeout(..., 3000)` whose handle is not stored
anywhere; the effect cleanup runs `websocket.close()` and nothing else. -/

/-- Observable state of the WebSocket effect: the connected flag, whether the
socket was closed, and the number of scheduled-and-not-cancelled reconnection
timers. -/
structure ConnEffectState where
  isConnected : Bool
  socketClosed : Bool
  pendingReconnectTimers : ℕ
deriving DecidableEq, Repr

/-- State after the effect body ran: connected, socket open, no timer. -/
def connEffectInit : ConnEffectState :=
  { isConnected := true, socketClosed := false, pendingReconnectTimers := 0 }

/-- The `onclose` handler: `setIsConnected(false)` and
`setTimeout(() => setWs(null), 3000)` — the timer handle is discarded, so the
schedule count grows and nothing retains the ability to clear it. -/
def wsOnClose (s : ConnEffectState) : ConnEffectState :=
  { s with isConnected := false,
           pendingReconnectTimers := s.pendingReconnectTimers + 1 }

/-- The effect cleanup (session teardown): the source runs only
`websocket.close()`; no `clearTimeout` occurs, so pending reconnection timers
are untouched. -/
def effectCleanup (s : ConnEffectState) : ConnEffectState :=
  { s with socketClosed := true }

/-- C9 (failing-input evaluation): after a transport closure schedules the
3-second reconnection and session teardown then runs before the delay
elapses, the scheduled reconnection is still pending — teardown does not
cancel it, contradicting the claim that no reconnection attempt can fire
after teardown. -/
theorem reconnect_timer_survives_teardown :
    (effectCleanup (wsOnClose connEffectInit)).pendingReconnectTimers = 1
    ∧ (effectCleanup (wsOnClose connEffectInit)).socketClosed = true := by
  decide

end Frontend
